import Mathlib

/-!
Verification development for the analytics and forecasting engine of the
shopify-mcp repository (src/tools/discounts.ts, `registerAnalyticsTools`).
The TypeScript handlers are shallowly embedded: JavaScript numbers are
modelled as exact rationals (the idealized semantics of the float code),
with a dedicated type `JNum` that carries the NaN value produced by
`parseFloat` on non-numeric strings; Math.sqrt is modelled with `Real.sqrt`.
-/

/-- Models JavaScript `Math.round x` = floor (x + 1/2), ties toward plus
infinity, over the idealized rational semantics. -/
def jsRound (q : ℚ) : ℤ := ⌊q + 1/2⌋

/-- Models the numeric round trip `parseFloat(x.toFixed(2))`: round to the
nearest cent, ties toward plus infinity (source: `toFixed(2)` on the
projected revenue before the confidence-interval computation). -/
def roundCents (q : ℚ) : ℚ := (⌊q * 100 + 1/2⌋ : ℚ) / 100

/-- Models the numeric content of `x.toFixed(1)`: round to the nearest
tenth, ties toward plus infinity. -/
def roundTenths (q : ℚ) : ℚ := (⌊q * 10 + 1/2⌋ : ℚ) / 10

/-- A JavaScript number as it flows through the aggregation code: either a
genuine (finite, rational-modelled) number or NaN, which `parseFloat`
returns on a wholly non-numeric string. Division and infinities never
arise on the modelled code paths (every division in the source is guarded
by a positivity test), so they are not represented. -/
inductive JNum : Type
  | nan : JNum
  | num : ℚ → JNum
deriving DecidableEq, Repr

/-- JavaScript addition restricted to the modelled values: NaN absorbs. -/
def JNum.add : JNum → JNum → JNum
  | JNum.num a, JNum.num b => JNum.num (a + b)
  | _, _ => JNum.nan

/-- JavaScript subtraction: NaN absorbs. -/
def JNum.sub : JNum → JNum → JNum
  | JNum.num a, JNum.num b => JNum.num (a - b)
  | _, _ => JNum.nan

/-- Multiplication by a finite number: NaN absorbs. -/
def JNum.mulQ : JNum → ℚ → JNum
  | JNum.num a, b => JNum.num (a * b)
  | JNum.nan, _ => JNum.nan

/-- Division by a finite number known nonzero at the call sites (every
modelled division sits under a `> 0` guard in the source): NaN absorbs. -/
def JNum.divQ : JNum → ℚ → JNum
  | JNum.num a, b => JNum.num (a / b)
  | JNum.nan, _ => JNum.nan

/-- Is this value NaN? -/
def JNum.isNan : JNum → Bool
  | JNum.nan => true
  | JNum.num _ => false

/-- The finite value carried, with 0 for NaN (used only to state sums). -/
def JNum.val : JNum → ℚ
  | JNum.nan => 0
  | JNum.num a => a

/-- Models the numeric content of `x.toFixed(1)` as used on a possible
NaN: `NaN.toFixed(1)` is the string "NaN", modelled as `JNum.nan`. -/
def JNum.round1 : JNum → JNum
  | JNum.nan => JNum.nan
  | JNum.num a => JNum.num (roundTenths a)

/-- The `totalPriceSet?.shopMoney?.amount` field of an order node: either
absent (some optional-chaining link missing) or a string. -/
inductive AmountField : Type
  | missing : AmountField
  | val : String → AmountField
deriving DecidableEq, Repr

/-- Digit test for the parseFloat model. -/
def isDigitCh (c : Char) : Bool := '0' ≤ c && c ≤ '9'

/-- Leading-whitespace stripping of the parseFloat model. -/
def stripSpaces (cs : List Char) : List Char := cs.dropWhile (fun c => c == ' ')

/-- Optional sign of the parseFloat model. -/
def splitSign : List Char → ℤ × List Char
  | '-' :: rest => (-1, rest)
  | '+' :: rest => (1, rest)
  | rest => (1, rest)

/-- Scan of the maximal `digits [. digits]` prefix, kept over ℕ so that it
evaluates by kernel reduction: returns (digit-string value, number of
digits after the dot, number of digits seen); the numeric value of the
prefix is `value / 10 ^ scale`. -/
def scanMantissa : List Char → ℕ → ℕ → Bool → ℕ → ℕ × ℕ × ℕ
  | [], acc, scale, _, seen => (acc, scale, seen)
  | c :: cs, acc, scale, sawDot, seen =>
    if isDigitCh c then
      scanMantissa cs (acc * 10 + (c.toNat - '0'.toNat))
        (if sawDot then scale + 1 else scale) sawDot (seen + 1)
    else if c == '.' && !sawDot then
      scanMantissa cs acc scale true seen
    else
      (acc, scale, seen)

/-- The scanned mantissa of a money string. -/
def mantissaOf (s : String) : ℕ × ℕ × ℕ :=
  scanMantissa (splitSign (stripSpaces s.toList)).2 0 0 false 0

/-- The sign of a money string. -/
def signOf (s : String) : ℤ := (splitSign (stripSpaces s.toList)).1

/-- Models JavaScript `parseFloat` on the strings that occur as money
amounts: optional leading spaces, optional sign, then a decimal numeral
`digits [. digits]`; if no digit is consumed the result is NaN. (The
exponent and Infinity forms of full parseFloat do not occur in money
amounts and are not modelled.) -/
def parseFloatJs (s : String) : JNum :=
  if (mantissaOf s).2.2 == 0 then JNum.nan
  else JNum.num ((signOf s : ℚ) * ((mantissaOf s).1 : ℚ) / 10 ^ (mantissaOf s).2.1)

/-- Models `parseFloat(o.totalPriceSet?.shopMoney?.amount || "0")`: a
missing field, and also an empty (falsy) string, becomes "0". -/
def parseAmount : AmountField → JNum
  | AmountField.missing => JNum.num 0
  | AmountField.val s => if s.isEmpty then JNum.num 0 else parseFloatJs s

/-- The `customer { id ordersCount }` node attached to an order (ids are
non-empty gid strings, modelled as naturals; a present customer therefore
always passes the truthiness test on `customer?.id`). -/
structure CustomerRef : Type where
  id : ℕ
  ordersCount : ℕ
deriving DecidableEq, Repr

/-- An order node as consumed by the store-analytics and
conversion-analysis handlers (`ORDERS_ANALYTICS_QUERY`). -/
structure OrderRecord : Type where
  amount : AmountField
  lineItemQuantities : List ℕ
  customer : Option CustomerRef
  referrerUrl : Option String
  landingPageUrl : Option String
deriving DecidableEq, Repr

/-- Source: `orders.reduce((sum, o) => sum + parseFloat(o.totalPriceSet?.shopMoney?.amount || "0"), 0)`
(the same reduction is used for `totalRevenue`, `prevRevenue`,
`completedRevenue` and `abandonedRevenue`). -/
def totalRevenue (orders : List OrderRecord) : JNum :=
  orders.foldl (fun sum o => JNum.add sum (parseAmount o.amount)) (JNum.num 0)

/-- Source: `orders.length`. -/
def totalOrders (orders : List OrderRecord) : ℕ := orders.length

/-- Source: `orders.reduce((sum, o) => sum + o.lineItems.nodes.reduce((s, li) => s + li.quantity, 0), 0)`. -/
def totalItems (orders : List OrderRecord) : ℕ :=
  orders.foldl (fun sum o => sum + o.lineItemQuantities.foldl (· + ·) 0) 0

/-- Source: `new Set(orders.filter(o => o.customer?.id).map(o => o.customer.id)).size`. -/
def uniqueCustomers (orders : List OrderRecord) : ℕ :=
  ((orders.filterMap (fun o => o.customer.map (·.id))).dedup).length

/-- Source: `orders.filter(o => o.customer?.ordersCount > 1).length` (an order
without a customer fails the test: `undefined > 1` is false). -/
def returningCustomers (orders : List OrderRecord) : ℕ :=
  (orders.filter (fun o =>
    match o.customer with
    | some c => 1 < c.ordersCount
    | none => false)).length

/-- Source: `const newCustomerOrders = totalOrders - returningCustomers` (store
analytics handler). -/
def newCustomerOrders (orders : List OrderRecord) : ℕ :=
  totalOrders orders - returningCustomers orders

/-- Source: `orders.filter(o => o.customer?.ordersCount === 1).length` (conversion
analysis handler). -/
def conversionNewCustomerOrders (orders : List OrderRecord) : ℕ :=
  (orders.filter (fun o =>
    match o.customer with
    | some c => c.ordersCount == 1
    | none => false)).length

/-- Source: `orders.filter(o => o.customer?.ordersCount > 1).length` (conversion
analysis handler). -/
def conversionReturningCustomerOrders (orders : List OrderRecord) : ℕ :=
  (orders.filter (fun o =>
    match o.customer with
    | some c => 1 < c.ordersCount
    | none => false)).length

/-- Source: `prevRevenue > 0 ? ((totalRevenue - prevRevenue) / prevRevenue * 100).toFixed(1) : "N/A"`:
`none` models the literal string "N/A"; `some j` models the formatted
number (with `JNum.nan` for the string "NaN" when the current revenue is
NaN). The `> 0` comparison is false for NaN, so a NaN previous revenue
also yields "N/A". -/
def revenueChange (current previous : JNum) : Option JNum :=
  match previous with
  | JNum.num p =>
      if 0 < p then
        some (JNum.round1 (JNum.mulQ (JNum.divQ (JNum.sub current (JNum.num p)) p) 100))
      else none
  | JNum.nan => none

/-- The period comparison run on the raw order lists of the current and
previous windows (store analytics handler, `comparison.revenue_change`). -/
def revenueChangeOfOrders (current previous : List OrderRecord) : Option JNum :=
  revenueChange (totalRevenue current) (totalRevenue previous)

/-- Models `StoreAnalyticsInputSchema`: `period_days` is
`z.number().optional()` with no positivity refinement, so every number
(including zero and negatives) validates. -/
def storeAnalyticsSchemaAccepts (periodDays : Option ℚ) : Bool :=
  match periodDays with
  | _ => true

/-- Source: `const dailyOrders = totalOrders / period_days` (the source divides
whatever `period_days` the schema let through). -/
def dailyOrders (periodDays : ℚ) (orders : List OrderRecord) : ℚ :=
  (totalOrders orders : ℚ) / periodDays

/-- Substring containment on character lists (JavaScript
`String.prototype.includes`). -/
def containsSub (hay needle : List Char) : Bool :=
  match hay with
  | [] => needle.isEmpty
  | c :: rest => List.isPrefixOf needle (c :: rest) || containsSub rest needle

/-- JavaScript `s.includes(sub)` (case-sensitive, as in the source's
keyword chain). -/
def jsIncludes (s sub : String) : Bool := containsSub s.toList sub.toList

/-- ASCII lowercasing (JavaScript `toLowerCase` on the ASCII strings that
occur here), kept over the character list so it evaluates by kernel
reduction. -/
def toLowerStr (s : String) : String := String.mk (s.toList.map Char.toLower)

/-- Does `s` end with `tail`? (JavaScript `String.prototype.endsWith`.) -/
def endsWithCh (s tail : List Char) : Bool :=
  List.isPrefixOf tail.reverse s.reverse

/-- Scan for the first `"://"`; returns the number of characters before it
and the characters after it. -/
def findSchemeSep : List Char → ℕ → Option (ℕ × List Char)
  | [], _ => none
  | ':' :: '/' :: '/' :: rest, n => some (n, rest)
  | _ :: rest, n => findSchemeSep rest (n + 1)

/-- Models the source's `getReferrerHost`: `new URL(url).hostname.toLowerCase()`
with `null` on a parse failure (and on a falsy `url`). The WHATWG parser is
modelled for the `scheme://host[/:?#]...` shapes that referrer URLs take: a
non-empty scheme before `"://"`, then the hostname up to the first `/`,
`:`, `?` or `#`; anything without `"://"` or with an empty scheme or host
is unparseable. -/
def getReferrerHost (s : String) : Option String :=
  match findSchemeSep s.toList 0 with
  | none => none
  | some (schemeLen, rest) =>
    if schemeLen == 0 then none
    else
      let host := rest.takeWhile (fun c => !(c == '/' || c == ':' || c == '?' || c == '#'))
      if host.isEmpty then none
      else some (String.mk (host.map Char.toLower))

/-- The hostname side of `matchesHost`: equality with, or subdomain of,
the (lowercased) target domain. -/
def hostMatches (host target : String) : Bool :=
  host == toLowerStr target || endsWithCh host.toList ('.' :: (toLowerStr target).toList)

/-- Source `matchesHost(ref, targetHost)`: hostname equality/subdomain when
the referrer parses as a URL, case-insensitive substring containment as the
fallback when it does not. -/
def matchesHost (ref targetHost : String) : Bool :=
  match getReferrerHost ref with
  | some h => hostMatches h targetHost
  | none => jsIncludes (toLowerStr ref) (toLowerStr targetHost)

/-- The closed set of traffic sources assigned by the attribution loop. -/
inductive TrafficSource : Type
  | direct | google | facebook | instagram | twitter | tiktok | email | pinterest | referral
deriving DecidableEq, Repr

/-- JavaScript `a || b` on a nullable string: `b` when `a` is null or
empty (falsy). -/
def jsOrStr (a : Option String) (b : String) : String :=
  match a with
  | some s => if s.isEmpty then b else s
  | none => b

/-- Source: `const referrer = order.referrerUrl || order.landingPageUrl || ""`. -/
def referrerOf (referrerUrl landingPageUrl : Option String) : String :=
  jsOrStr referrerUrl (jsOrStr landingPageUrl "")

/-- The attribution chain of the traffic-source loop, verbatim from the
source: substring checks for google/facebook/instagram, `matchesHost` for
the three twitter domains, substring checks for tiktok/email/pinterest,
then the self-referral test against `process.env.SHOPIFY_SHOP_DOMAIN || ""`
(modelled by the `storeDomain` parameter). -/
def classifyReferrer (storeDomain referrer : String) : TrafficSource :=
  if jsIncludes referrer "google" then TrafficSource.google
  else if jsIncludes referrer "facebook" || jsIncludes referrer "fb." then TrafficSource.facebook
  else if jsIncludes referrer "instagram" then TrafficSource.instagram
  else if matchesHost referrer "twitter.com" || matchesHost referrer "t.co" || matchesHost referrer "x.com" then TrafficSource.twitter
  else if jsIncludes referrer "tiktok" then TrafficSource.tiktok
  else if jsIncludes referrer "email" || jsIncludes referrer "klaviyo" || jsIncludes referrer "mailchimp" then TrafficSource.email
  else if jsIncludes referrer "pinterest" then TrafficSource.pinterest
  else if !referrer.isEmpty && !(jsIncludes referrer storeDomain) then TrafficSource.referral
  else TrafficSource.direct

/-- The source assigned to one order by the traffic-source loop. -/
def orderSource (storeDomain : String) (o : OrderRecord) : TrafficSource :=
  classifyReferrer storeDomain (referrerOf o.referrerUrl o.landingPageUrl)

/-- An order as consumed by the forecast handler: its calendar-month
bucket key and its parsed total. `monthKey` encodes the zero-padded
`${year}-${month}` string built from `createdAt` (numeric order on the
encoding coincides with the `localeCompare` order on the strings);
`amount` is the value of `parseFloat(order.totalPriceSet?.shopMoney?.amount || "0")`
(forecast claims concern numeric histories; the parse itself is
`parseAmount`, studied separately). -/
structure ForecastOrder : Type where
  monthKey : ℕ
  amount : ℚ
deriving DecidableEq, Repr

/-- One entry of the `monthlyData` record: `{ orders, revenue }` keyed by
month. -/
structure MonthBucket : Type where
  key : ℕ
  orders : ℕ
  revenue : ℚ
deriving DecidableEq, Repr

/-- One step of building `monthlyData`: create the bucket on first sight
(JavaScript object insertion order is preserved for these non-index keys),
otherwise increment its counters. -/
def addToMonth : List MonthBucket → ℕ → ℚ → List MonthBucket
  | [], k, amt => [⟨k, 1, amt⟩]
  | b :: rest, k, amt =>
    if b.key == k then ⟨b.key, b.orders + 1, b.revenue + amt⟩ :: rest
    else b :: addToMonth rest k amt

/-- The `monthlyData` record of the forecast handler. -/
def monthlyData (orders : List ForecastOrder) : List MonthBucket :=
  orders.foldl (fun acc o => addToMonth acc o.monthKey o.amount) []

/-- Source: `months.reduce((s, m) => s + m.orders, 0) / Math.max(months.length, 1)`. -/
def avgMonthlyOrders (orders : List ForecastOrder) : ℚ :=
  ((monthlyData orders).foldl (fun s b => s + (b.orders : ℚ)) 0) /
    (max (monthlyData orders).length 1 : ℚ)

/-- Source: `months.reduce((s, m) => s + m.revenue, 0) / Math.max(months.length, 1)`. -/
def avgMonthlyRevenue (orders : List ForecastOrder) : ℚ :=
  ((monthlyData orders).foldl (fun s b => s + b.revenue) 0) /
    (max (monthlyData orders).length 1 : ℚ)

/-- Insertion step of sorting the buckets by month key. -/
def insertBucket (b : MonthBucket) : List MonthBucket → List MonthBucket
  | [] => [b]
  | c :: rest => if b.key ≤ c.key then b :: c :: rest else c :: insertBucket b rest

/-- Source: `Object.entries(monthlyData).sort((a, b) => a[0].localeCompare(b[0]))`:
the buckets in ascending month order (keys are distinct, so any correct
sort gives the same list). -/
def sortedMonths (orders : List ForecastOrder) : List MonthBucket :=
  (monthlyData orders).foldr insertBucket []

/-- Month-over-month growth from the two most recent buckets, `0` when
fewer than two buckets exist or the earlier of the two has revenue `<= 0`. -/
def momGrowth (orders : List ForecastOrder) : ℚ :=
  match (sortedMonths orders).reverse with
  | lastM :: prevM :: _ =>
      if 0 < prevM.revenue then (lastM.revenue - prevM.revenue) / prevM.revenue else 0
  | _ => 0

/-- The three growth scenarios of `ForecastInputSchema`. -/
inductive GrowthScenario : Type
  | conservative | moderate | aggressive
deriving DecidableEq, Repr

/-- The `growthMultipliers` table. -/
def growthMultipliers : GrowthScenario → ℚ
  | GrowthScenario.conservative => 2/100
  | GrowthScenario.moderate => 5/100
  | GrowthScenario.aggressive => 10/100

/-- Source: `const baseGrowthRate = momGrowth > 0 ? momGrowth : growthMultipliers[growth_scenario]`. -/
def baseGrowthRate (orders : List ForecastOrder) (scen : GrowthScenario) : ℚ :=
  if 0 < momGrowth orders then momGrowth orders else growthMultipliers scen

/-- The `seasonalFactors` table, keyed 1..12 as in the source; the code
only ever indexes it with `getMonth() + 1`, which lies in 1..12, so the
final catch-all branch (needed for totality in Lean) is unreachable. -/
def seasonalFactors (m : ℕ) : ℚ :=
  match m with
  | 1 => 85/100
  | 2 => 90/100
  | 3 => 95/100
  | 4 => 1
  | 5 => 1
  | 6 => 95/100
  | 7 => 90/100
  | 8 => 95/100
  | 9 => 1
  | 10 => 105/100
  | 11 => 120/100
  | 12 => 135/100
  | _ => 1

/-- The compounding loop of the forecast handler: after `h` iterations the
running value has been multiplied, for each `i = 1..h`, by `(1 + rate)`
and then (if seasonality is enabled) by the seasonal factor of the month
`i * 30` days ahead. `monthOf i` models
`new Date(now.getTime() + i*30*24*60*60*1000).getMonth()` (0-based, hence
the `+ 1` when indexing the table). -/
def projectedAfter (base rate : ℚ) (seas : Bool) (monthOf : ℕ → Fin 12) : ℕ → ℚ
  | 0 => base
  | h + 1 =>
      projectedAfter base rate seas monthOf h * (1 + rate) *
        (if seas then seasonalFactors ((monthOf (h + 1)).val + 1) else 1)

/-- Source: `projected_monthly_orders: Math.round(projectedOrders)` for horizon `h`. -/
def projectedMonthlyOrders (orders : List ForecastOrder) (scen : GrowthScenario)
    (seas : Bool) (monthOf : ℕ → Fin 12) (h : ℕ) : ℤ :=
  jsRound (projectedAfter (avgMonthlyOrders orders) (baseGrowthRate orders scen) seas monthOf h)

/-- The numeric value of `projected_monthly_revenue: projectedRevenue.toFixed(2)`
for horizon `h` (this rounded value is what the confidence-interval step
reads back with `parseFloat`). -/
def projectedMonthlyRevenue (orders : List ForecastOrder) (scen : GrowthScenario)
    (seas : Bool) (monthOf : ℕ → Fin 12) (h : ℕ) : ℚ :=
  roundCents (projectedAfter (avgMonthlyRevenue orders) (baseGrowthRate orders scen) seas monthOf h)

/-- Source: `const volatility = 0.15`. -/
def volatility : ℚ := 15/100

/-- Source: `revenue_low: parseFloat(f.projected_monthly_revenue) * (1 - volatility * Math.sqrt(f.months_ahead))`
(the final `toFixed(2)` presentation of the bound is not modelled; the
claims about the band are insensitive to sub-cent formatting). -/
noncomputable def revenueLow (orders : List ForecastOrder) (scen : GrowthScenario)
    (seas : Bool) (monthOf : ℕ → Fin 12) (h : ℕ) : ℝ :=
  (projectedMonthlyRevenue orders scen seas monthOf h : ℝ) * (1 - (volatility : ℝ) * Real.sqrt h)

/-- Source: `revenue_high: parseFloat(f.projected_monthly_revenue) * (1 + volatility * Math.sqrt(f.months_ahead))`. -/
noncomputable def revenueHigh (orders : List ForecastOrder) (scen : GrowthScenario)
    (seas : Bool) (monthOf : ℕ → Fin 12) (h : ℕ) : ℝ :=
  (projectedMonthlyRevenue orders scen seas monthOf h : ℝ) * (1 + (volatility : ℝ) * Real.sqrt h)

/-- The width `revenue_high - revenue_low` of the confidence band at
horizon `h`. -/
noncomputable def bandWidth (orders : List ForecastOrder) (scen : GrowthScenario)
    (seas : Bool) (monthOf : ℕ → Fin 12) (h : ℕ) : ℝ :=
  revenueHigh orders scen seas monthOf h - revenueLow orders scen seas monthOf h

/-- A line item of the product-performance query. `productKey` is the
resolved aggregation key `item.variant?.product?.id || item.title`
(modelled abstractly as a natural); `amount` is the parsed
`originalTotalSet.shopMoney.amount`; `totalInventory` is
`item.variant?.product?.totalInventory` (absent when some link of the
optional chain is missing). -/
structure PerfLineItem : Type where
  productKey : ℕ
  quantity : ℕ
  amount : ℚ
  totalInventory : Option ℤ
deriving DecidableEq, Repr

/-- An order of the product-performance query (`order.lineItems?.nodes || []`
already flattened to a plain list). -/
structure PerfOrder : Type where
  lineItems : List PerfLineItem
deriving DecidableEq, Repr

/-- One accumulated `productStats` entry (the `title` field and the
gid-string cosmetics of the output are not modelled; no claim reads
them). -/
structure ProductStat : Type where
  key : ℕ
  units_sold : ℕ
  revenue : ℚ
  order_count : ℕ
  inventory : ℤ
deriving DecidableEq, Repr

/-- Source: `item.variant?.product?.totalInventory || 0`: a missing link gives 0;
a present value (including a negative one, which is truthy) is kept. -/
def jsOrInt (a : Option ℤ) : ℤ :=
  match a with
  | some n => n
  | none => 0

/-- One line item folded into `productStats`: on first sight the entry is
created with the item's inventory snapshot, then (as on every later
sight) `units_sold += quantity`, `revenue += amount`, `order_count++`. -/
def addLineItem : List ProductStat → PerfLineItem → List ProductStat
  | [], it => [⟨it.productKey, it.quantity, it.amount, 1, jsOrInt it.totalInventory⟩]
  | p :: rest, it =>
    if p.key == it.productKey then
      ⟨p.key, p.units_sold + it.quantity, p.revenue + it.amount, p.order_count + 1, p.inventory⟩ :: rest
    else p :: addLineItem rest it

/-- The `productStats` record in JavaScript object insertion order (the
keys are gid strings, not array indices, so `Object.entries` preserves
first-insertion order). -/
def productStats (orders : List PerfOrder) : List ProductStat :=
  orders.foldl (fun acc o => o.lineItems.foldl addLineItem acc) []

/-- Source: `velocity: stats.inventory > 0 ? stats.units_sold / stats.inventory : stats.units_sold`. -/
def velocity (p : ProductStat) : ℚ :=
  if 0 < p.inventory then (p.units_sold : ℚ) / (p.inventory : ℚ) else (p.units_sold : ℚ)

/-- The filter `p => p.inventory > 0 && p.inventory < 10 && p.velocity > 0.5`. -/
def restockCandidate (p : ProductStat) : Bool :=
  decide (0 < p.inventory) && decide (p.inventory < 10) && decide ((1/2 : ℚ) < velocity p)

/-- The filter `p => p.inventory > 50 && p.velocity < 0.1`. -/
def promotionCandidate (p : ProductStat) : Bool :=
  decide (50 < p.inventory) && decide (velocity p < (1/10 : ℚ))

/-- Source: `const lowInventoryHighVelocity = products.filter(...).slice(0, 5)`
(the `restock_soon` list). -/
def lowInventoryHighVelocity (orders : List PerfOrder) : List ProductStat :=
  ((productStats orders).filter restockCandidate).take 5

/-- Source: `const highInventoryLowVelocity = products.filter(...).slice(0, 5)`
(the `consider_promotion` list). -/
def highInventoryLowVelocity (orders : List PerfOrder) : List ProductStat :=
  ((productStats orders).filter promotionCandidate).take 5

/-- The single-bucket history used in concrete instantiations: one order
of 100 in month 5 of the 90-day window. -/
def singleHistory : List ForecastOrder := [⟨5, 100⟩]

/-- Months for the C1 instantiation: 30 and 60 days ahead of a
late-October "now" fall in November and December (0-based `getMonth`
values 10 and 11). -/
def monthsNovDec : ℕ → Fin 12 := fun i => if i == 1 then (10 : Fin 12) else 11

/-- Months for the C7 counterexample, realizable from a "now" of about
August 1: 30·i days ahead fall in Aug, Sep, Oct, Nov, Dec, Jan for
i = 1..6 (0-based `getMonth` values 7, 8, 9, 10, 11, 0). -/
def monthsAugJan : ℕ → Fin 12 :=
  fun i =>
    match i with
    | 1 => 7
    | 2 => 8
    | 3 => 9
    | 4 => 10
    | 5 => 11
    | _ => 0

/-- Concrete product-performance input: one order with six line items of
six distinct products, each with quantity 20 and inventory 5, so all six
aggregate to restock candidates (velocity 4 > 0.5, 0 < 5 < 10). -/
def sixRestock : List PerfOrder := [⟨(List.range 6).map (fun k => ⟨k, 20, 100, some 5⟩)⟩]

lemma foldl_jadd_nan (orders : List OrderRecord) :
    orders.foldl (fun sum o => JNum.add sum (parseAmount o.amount)) JNum.nan = JNum.nan := by
  induction orders with
  | nil => rfl
  | cons o rest ih =>
    simpa [List.foldl_cons, JNum.add] using ih

lemma foldlAmounts_eq (orders : List OrderRecord) (a : ℚ) :
    orders.foldl (fun sum o => JNum.add sum (parseAmount o.amount)) (JNum.num a) =
      if ∃ o ∈ orders, parseAmount o.amount = JNum.nan then JNum.nan
      else JNum.num (orders.foldl (fun s o => s + (parseAmount o.amount).val) a) := by
  induction orders generalizing a with
  | nil => simp
  | cons o rest ih =>
    cases hpo : parseAmount o.amount with
    | nan =>
      have h1 : JNum.add (JNum.num a) (parseAmount o.amount) = JNum.nan := by
        rw [hpo]; rfl
      rw [List.foldl_cons, h1, foldl_jadd_nan,
        if_pos ⟨o, List.mem_cons_self o rest, hpo⟩]
    | num b =>
      have h1 : JNum.add (JNum.num a) (parseAmount o.amount) = JNum.num (a + b) := by
        rw [hpo]; rfl
      have hmem : (∃ x ∈ o :: rest, parseAmount x.amount = JNum.nan) ↔
          (∃ x ∈ rest, parseAmount x.amount = JNum.nan) := by
        simp [hpo]
      rw [List.foldl_cons, h1, ih]
      by_cases hex : ∃ x ∈ rest, parseAmount x.amount = JNum.nan
      · rw [if_pos hex, if_pos (hmem.mpr hex)]
      · rw [if_neg hex, if_neg (fun hc => hex (hmem.mp hc))]
        have h2 : a + (parseAmount o.amount).val = a + b := by rw [hpo]; rfl
        rw [List.foldl_cons, h2]

lemma countP_split {α : Type} (l : List α) (p q r : α → Bool)
    (h : ∀ a, (if r a then (1 : ℕ) else 0) = (if p a then 1 else 0) + (if q a then 1 else 0)) :
    l.countP p + l.countP q = l.countP r := by
  induction l with
  | nil => simp
  | cons a tl ih =>
    simp only [List.countP_cons]
    have := h a
    omega

/-- C4 (counterexample): an order whose amount string is wholly
non-numeric makes `revenue_total` NaN, not a finite sum with 0 for the bad
amount — at input `[{amount: "abc"}]` the claim predicts revenue 0, the
code yields NaN. -/
theorem c4_unparseable_nan_counterexample :
    totalRevenue [⟨AmountField.val "abc", [], none, none, none⟩] = JNum.nan ∧
    JNum.nan ≠ JNum.num 0 := by
  constructor
  · rfl
  · decide

/-- C4 (amended): a missing or empty amount contributes exactly 0, and as
long as every amount parses the aggregation returns the finite sum; but a
single wholly-unparseable amount makes the whole `revenue_total` NaN (the
reduction itself never raises — it always yields a value). -/
theorem c4_revenue_nan_policy (orders : List OrderRecord) :
    ((∃ o ∈ orders, parseAmount o.amount = JNum.nan) → totalRevenue orders = JNum.nan) ∧
    ((∀ o ∈ orders, parseAmount o.amount ≠ JNum.nan) →
      totalRevenue orders = JNum.num (orders.foldl (fun s o => s + (parseAmount o.amount).val) 0)) := by
  constructor
  · intro hex
    rw [totalRevenue, foldlAmounts_eq, if_pos hex]
  · intro hall
    rw [totalRevenue, foldlAmounts_eq, if_neg]
    rintro ⟨o, ho, hno⟩
    exact hall o ho hno

/-- C4 (witness for the amended theorem). -/
theorem c4_revenue_nan_policy_witness :
    (∀ o ∈ [(⟨AmountField.val "12.75", [], none, none, none⟩ : OrderRecord),
            ⟨AmountField.missing, [], none, none, none⟩],
      parseAmount o.amount ≠ JNum.nan) ∧
    totalRevenue [(⟨AmountField.val "12.75", [], none, none, none⟩ : OrderRecord),
            ⟨AmountField.missing, [], none, none, none⟩] = JNum.num (51/4) := by
  refine ⟨by decide, ?_⟩
  rw [(c4_revenue_nan_policy _).2 (by decide)]
  have h0 : ("12.75" : String).isEmpty = false := by decide
  have h1 : mantissaOf "12.75" = (1275, 2, 4) := by decide
  have h2 : signOf "12.75" = 1 := by decide
  have hp : parseAmount (AmountField.val "12.75") = JNum.num (51/4) := by
    simp only [parseAmount, h0, parseFloatJs, h1, h2, Bool.false_eq_true, if_false]
    norm_num
  have hm : parseAmount AmountField.missing = JNum.num 0 := rfl
  simp only [List.foldl, hp, hm, JNum.val]
  norm_num

/-- C6 (counterexample): the sentinel condition in the source is
`prevRevenue > 0`, not `prevRevenue == 0`: a previous window whose order
totals sum to `-50` (nonzero) still yields the "N/A" sentinel instead of
the formatted percentage the claim prescribes. -/
theorem c6_negative_previous_counterexample :
    revenueChangeOfOrders [⟨AmountField.val "150", [], none, none, none⟩]
        [⟨AmountField.val "-50", [], none, none, none⟩] = none ∧
    totalRevenue [(⟨AmountField.val "-50", [], none, none, none⟩ : OrderRecord)] =
      JNum.num (-50) ∧
    (-50 : ℚ) ≠ 0 := by
  have e50 : mantissaOf "-50" = (50, 0, 2) := by decide
  have s50 : signOf "-50" = -1 := by decide
  have i50 : ("-50" : String).isEmpty = false := by decide
  have hneg : totalRevenue [(⟨AmountField.val "-50", [], none, none, none⟩ : OrderRecord)] =
      JNum.num (-50) := by
    simp only [totalRevenue, List.foldl, parseAmount, i50, parseFloatJs, e50, s50,
      Bool.false_eq_true, if_false, JNum.add]
    norm_num
  refine ⟨?_, hneg, by norm_num⟩
  have e150 : mantissaOf "150" = (150, 0, 3) := by decide
  have s150 : signOf "150" = 1 := by decide
  have i150 : ("150" : String).isEmpty = false := by decide
  have hcur : totalRevenue [(⟨AmountField.val "150", [], none, none, none⟩ : OrderRecord)] =
      JNum.num 150 := by
    simp only [totalRevenue, List.foldl, parseAmount, i150, parseFloatJs, e150, s150,
      Bool.false_eq_true, if_false, JNum.add]
    norm_num
  rw [revenueChangeOfOrders, hcur, hneg, revenueChange, if_neg]
  norm_num

/-- C6 (amended): `revenue_change` is the "N/A" sentinel exactly when the
previous revenue is not strictly positive (in particular when it is 0,
never infinity or null), and for strictly positive previous revenue it is
`(current - previous)/previous*100` rounded to one decimal place. -/
theorem c6_revenue_change_sentinel (c p : ℚ) :
    (revenueChange (JNum.num c) (JNum.num p) = none ↔ p ≤ 0) ∧
    (0 < p → revenueChange (JNum.num c) (JNum.num p) =
      some (JNum.num (roundTenths ((c - p) / p * 100)))) := by
  constructor
  · constructor
    · intro h
      by_contra hp
      push_neg at hp
      simp [revenueChange, hp] at h
    · intro hp
      simp [revenueChange, not_lt.mpr hp]
  · intro hp
    simp [revenueChange, hp, JNum.sub, JNum.divQ, JNum.mulQ, JNum.round1]

/-- C6 (witness): previous revenue 100 and current 150 produce the
formatted value 50.0. -/
theorem c6_revenue_change_sentinel_witness :
    0 < (100 : ℚ) ∧
    revenueChange (JNum.num 150) (JNum.num 100) = some (JNum.num 50) := by
  refine ⟨by norm_num, ?_⟩
  rw [(c6_revenue_change_sentinel 150 100).2 (by norm_num)]
  norm_num [roundTenths]

/-- C8 (counterexample): in the store-analytics split an order without a
customer ref is counted as a new-customer order (`newCustomerOrders =
totalOrders - returningCustomers`), so returning + new = 1 while the
number of orders carrying a customer ref is 0. -/
theorem c8_bucket_split_counterexample :
    returningCustomers [⟨AmountField.missing, [], none, none, none⟩] = 0 ∧
    newCustomerOrders [⟨AmountField.missing, [], none, none, none⟩] = 1 ∧
    ([(⟨AmountField.missing, [], none, none, none⟩ : OrderRecord)].filter
      (fun o => o.customer.isSome)).length = 0 ∧
    (1 : ℕ) ≠ 0 := by
  refine ⟨by rfl, by rfl, by rfl, by decide⟩

/-- C8 (amended): orders without a customer ref still count toward
`order_count`, and they are excluded from the unique-customer set; but the
two bucket splits disagree with the claim: the store-analytics split puts
them into the new bucket (returning + new = order_count), while the
conversion-analysis split puts them in neither bucket and satisfies
returning + new = number of orders whose customer has ordersCount >= 1. -/
theorem c8_customer_bucketing (orders : List OrderRecord) :
    returningCustomers orders + newCustomerOrders orders = totalOrders orders ∧
    conversionNewCustomerOrders orders + conversionReturningCustomerOrders orders =
      (orders.filter (fun o =>
        match o.customer with
        | some c => decide (1 ≤ c.ordersCount)
        | none => false)).length := by
  constructor
  · have hle : returningCustomers orders ≤ totalOrders orders := by
      simp only [returningCustomers, totalOrders]
      exact List.length_filter_le _ _
    rw [newCustomerOrders]
    omega
  · induction orders with
    | nil => rfl
    | cons o rest ih =>
      simp only [conversionNewCustomerOrders, conversionReturningCustomerOrders,
        List.filter_cons] at ih ⊢
      cases hc : o.customer with
      | none => simpa [hc] using ih
      | some c =>
        match hn : c.ordersCount with
        | 0 => simpa [hc, hn] using ih
        | 1 =>
          simp [hc, hn]
          omega
        | m + 2 =>
          have e1 : m + 2 ≠ 1 := by omega
          have e2 : 1 < m + 2 := by omega
          have e3 : 1 ≤ m + 2 := by omega
          simp [hc, hn, e1, e2, e3]
          omega

/-- C9 (code bug, evaluated at the failing input): the store-analytics
input schema has no positivity refinement on `period_days`
(`z.number().optional()`), so `period_days = -30` validates, and the
handler then silently computes the nonsensical daily average
`12 / (-30) = -0.4` orders/day instead of failing fast. -/
theorem c9_schema_accepts_nonpositive :
    storeAnalyticsSchemaAccepts (some (-30)) = true ∧
    dailyOrders (-30)
      (List.replicate 12 (⟨AmountField.missing, [], none, none, none⟩ : OrderRecord)) =
      -2/5 := by
  constructor
  · rfl
  · have hl : totalOrders
        (List.replicate 12 (⟨AmountField.missing, [], none, none, none⟩ : OrderRecord)) = 12 := by
      simp [totalOrders]
    rw [dailyOrders, hl]
    norm_num

/-- C2 (counterexample): only the twitter checks parse the URL; the google
check is a plain case-sensitive substring test on the whole referrer
string. The referrer "https://example.com/blog-about-google" parses to
hostname "example.com" (which does not even contain "google"), yet the
order is attributed to google because the keyword occurs in the path. -/
theorem c2_substring_first_counterexample :
    orderSource "mystore.myshopify.com"
      ⟨AmountField.missing, [], none, some "https://example.com/blog-about-google", none⟩ =
      TrafficSource.google ∧
    getReferrerHost "https://example.com/blog-about-google" = some "example.com" ∧
    jsIncludes "example.com" "google" = false := by
  refine ⟨by decide, by decide, by decide⟩

/-- C2 (amended): hostname-equality/subdomain matching (with substring
containment only as the unparseable-URL fallback) applies only to the
twitter/t.co/x.com checks; for those, a parseable referrer whose hostname
neither equals nor is a subdomain of the three domains is never attributed
to twitter. The remaining platforms are matched by substring containment
on the whole URL string, parseable or not. -/
theorem c2_twitter_hostname_only (sd ref h : String)
    (hparse : getReferrerHost ref = some h)
    (h1 : hostMatches h "twitter.com" = false)
    (h2 : hostMatches h "t.co" = false)
    (h3 : hostMatches h "x.com" = false) :
    classifyReferrer sd ref ≠ TrafficSource.twitter := by
  have hm1 : matchesHost ref "twitter.com" = false := by
    simp only [matchesHost, hparse]; exact h1
  have hm2 : matchesHost ref "t.co" = false := by
    simp only [matchesHost, hparse]; exact h2
  have hm3 : matchesHost ref "x.com" = false := by
    simp only [matchesHost, hparse]; exact h3
  simp only [classifyReferrer, hm1, hm2, hm3]
  split_ifs <;> simp_all

/-- C2 (witness for the amended theorem). -/
theorem c2_twitter_hostname_only_witness :
    getReferrerHost "https://news.ycombinator.com/item" = some "news.ycombinator.com" ∧
    hostMatches "news.ycombinator.com" "twitter.com" = false ∧
    hostMatches "news.ycombinator.com" "t.co" = false ∧
    hostMatches "news.ycombinator.com" "x.com" = false ∧
    classifyReferrer "mystore.myshopify.com" "https://news.ycombinator.com/item" ≠
      TrafficSource.twitter :=
  ⟨by decide, by decide, by decide, by decide,
    c2_twitter_hostname_only "mystore.myshopify.com" "https://news.ycombinator.com/item"
      "news.ycombinator.com" (by decide) (by decide) (by decide) (by decide)⟩

/-- C3 (confirmed): an empty referrer (after falling back to the landing
page URL) is classified `direct`; a non-empty referrer that matches none
of the keyword/host checks and does not contain the store's domain is
classified `referral`; and on the spec's three concrete examples the
attribution is facebook / direct / referral respectively. -/
theorem c3_direct_referral_classification :
    (∀ sd : String, classifyReferrer sd "" = TrafficSource.direct) ∧
    (∀ sd ref : String, ref ≠ "" →
      jsIncludes ref "google" = false →
      jsIncludes ref "facebook" = false →
      jsIncludes ref "fb." = false →
      jsIncludes ref "instagram" = false →
      matchesHost ref "twitter.com" = false →
      matchesHost ref "t.co" = false →
      matchesHost ref "x.com" = false →
      jsIncludes ref "tiktok" = false →
      jsIncludes ref "email" = false →
      jsIncludes ref "klaviyo" = false →
      jsIncludes ref "mailchimp" = false →
      jsIncludes ref "pinterest" = false →
      jsIncludes ref sd = false →
      classifyReferrer sd ref = TrafficSource.referral) ∧
    orderSource "mystore.myshopify.com"
      ⟨AmountField.missing, [], none, some "https://m.facebook.com/ad", none⟩ =
      TrafficSource.facebook ∧
    orderSource "mystore.myshopify.com"
      ⟨AmountField.missing, [], none, none, none⟩ = TrafficSource.direct ∧
    orderSource "mystore.myshopify.com"
      ⟨AmountField.missing, [], none, some "https://randomblog.example.com", none⟩ =
      TrafficSource.referral := by
  refine ⟨?_, ?_, by decide, by decide, by decide⟩
  · intro sd
    have e1 : jsIncludes "" "google" = false := rfl
    have e2 : jsIncludes "" "facebook" = false := rfl
    have e3 : jsIncludes "" "fb." = false := rfl
    have e4 : jsIncludes "" "instagram" = false := rfl
    have e5 : matchesHost "" "twitter.com" = false := rfl
    have e6 : matchesHost "" "t.co" = false := rfl
    have e7 : matchesHost "" "x.com" = false := rfl
    have e8 : jsIncludes "" "tiktok" = false := rfl
    have e9 : jsIncludes "" "email" = false := rfl
    have e10 : jsIncludes "" "klaviyo" = false := rfl
    have e11 : jsIncludes "" "mailchimp" = false := rfl
    have e12 : jsIncludes "" "pinterest" = false := rfl
    have e13 : ("" : String).isEmpty = true := rfl
    simp [classifyReferrer, e1, e2, e3, e4, e5, e6, e7, e8, e9, e10, e11, e12, e13]
  · intro sd ref hne h1 h2 h3 h4 h5 h6 h7 h8 h9 h10 h11 h12 hsd
    have hie : ref.isEmpty = false := by
      cases hh : ref.isEmpty
      · rfl
      · exact absurd ((String.isEmpty_iff ref).mp hh) hne
    simp [classifyReferrer, h1, h2, h3, h4, h5, h6, h7, h8, h9, h10, h11, h12, hsd, hie]

/-- C3 (witness): the referral rule applied at the concrete referrer
"https://randomblog.example.com" with store domain "mystore.myshopify.com". -/
theorem c3_direct_referral_classification_witness :
    ("https://randomblog.example.com" : String) ≠ "" ∧
    jsIncludes "https://randomblog.example.com" "mystore.myshopify.com" = false ∧
    classifyReferrer "mystore.myshopify.com" "https://randomblog.example.com" =
      TrafficSource.referral :=
  ⟨by decide, by decide,
    c3_direct_referral_classification.2.1 "mystore.myshopify.com"
      "https://randomblog.example.com" (by decide) (by decide) (by decide) (by decide)
      (by decide) (by decide) (by decide) (by decide) (by decide) (by decide) (by decide)
      (by decide) (by decide) (by decide)⟩

lemma projectedAfter_zero (rate : ℚ) (seas : Bool) (monthOf : ℕ → Fin 12) (n : ℕ) :
    projectedAfter 0 rate seas monthOf n = 0 := by
  induction n with
  | zero => rfl
  | succ k ih => simp [projectedAfter, ih]

lemma projectedAfter_step (b r : ℚ) (monthOf : ℕ → Fin 12) (n : ℕ) :
    projectedAfter b r true monthOf (n + 1) =
      projectedAfter b r true monthOf n * (1 + r) *
        seasonalFactors ((monthOf (n + 1)).val + 1) := by
  rw [projectedAfter]
  simp

lemma projectedAfter_closed (b r : ℚ) (monthOf : ℕ → Fin 12) (h : ℕ) :
    projectedAfter b r true monthOf h =
      b * (1 + r) ^ h * ∏ i in Finset.Icc 1 h, seasonalFactors ((monthOf i).val + 1) := by
  induction h with
  | zero => simp [projectedAfter]
  | succ k ih =>
    rw [projectedAfter_step, ih, Finset.prod_Icc_succ_top (by omega : 1 ≤ k + 1)]
    ring

lemma projectedAfter_noSeas (b r : ℚ) (monthOf : ℕ → Fin 12) (h : ℕ) :
    projectedAfter b r false monthOf h = b * (1 + r) ^ h := by
  induction h with
  | zero => simp [projectedAfter]
  | succ k ih =>
    rw [projectedAfter, ih]
    simp [pow_succ]
    ring

lemma baseGrowthRate_pos (orders : List ForecastOrder) (scen : GrowthScenario) :
    0 < baseGrowthRate orders scen := by
  rw [baseGrowthRate]
  split_ifs with h
  · exact h
  · cases scen <;> norm_num [growthMultipliers]

lemma roundCents_mono {a b : ℚ} (h : a ≤ b) : roundCents a ≤ roundCents b := by
  rw [roundCents, roundCents]
  have hf : ⌊a * 100 + 1/2⌋ ≤ ⌊b * 100 + 1/2⌋ :=
    Int.floor_le_floor (by linarith)
  have : ((⌊a * 100 + 1/2⌋ : ℤ) : ℚ) ≤ ((⌊b * 100 + 1/2⌋ : ℤ) : ℚ) := by exact_mod_cast hf
  linarith

lemma roundCents_nonneg {a : ℚ} (h : 0 ≤ a) : 0 ≤ roundCents a := by
  rw [roundCents]
  have hf : (0 : ℤ) ≤ ⌊a * 100 + 1/2⌋ := Int.floor_nonneg.mpr (by linarith)
  have : (0 : ℚ) ≤ ((⌊a * 100 + 1/2⌋ : ℤ) : ℚ) := by exact_mod_cast hf
  linarith

lemma mul_sqrt_lt_mul_sqrt (a b : ℝ) (x y : ℕ) (ha : 0 ≤ a) (hb : 0 ≤ b)
    (hlt : a ^ 2 * x < b ^ 2 * y) : a * Real.sqrt x < b * Real.sqrt y := by
  have h1 : a * Real.sqrt x = Real.sqrt (a ^ 2 * x) := by
    rw [Real.sqrt_mul (sq_nonneg a), Real.sqrt_sq ha]
  have h2 : b * Real.sqrt y = Real.sqrt (b ^ 2 * y) := by
    rw [Real.sqrt_mul (sq_nonneg b), Real.sqrt_sq hb]
  rw [h1, h2]
  exact Real.sqrt_lt_sqrt (by positivity) hlt

lemma monthlyData_single : monthlyData singleHistory = [⟨5, 1, 100⟩] := rfl

lemma avgRevenue_single : avgMonthlyRevenue singleHistory = 100 := by
  simp [avgMonthlyRevenue, monthlyData_single]

lemma momGrowth_single : momGrowth singleHistory = 0 := rfl

lemma baseGrowthRate_single (scen : GrowthScenario) :
    baseGrowthRate singleHistory scen = growthMultipliers scen := by
  rw [baseGrowthRate, momGrowth_single, if_neg (lt_irrefl 0)]

/-- C5 (confirmed): with zero orders in the 90-day window, for every
growth scenario, seasonality setting, month assignment and horizon, the
projected orders are 0 and both confidence bounds are 0 (the guarded
divisions `Math.max(months.length, 1)` and the `> 0` test in the growth
computation leave no failing division on this path). -/
theorem c5_zero_history_forecast (scen : GrowthScenario) (seas : Bool)
    (monthOf : ℕ → Fin 12) (h : ℕ) :
    projectedMonthlyOrders [] scen seas monthOf h = 0 ∧
    revenueLow [] scen seas monthOf h = 0 ∧
    revenueHigh [] scen seas monthOf h = 0 := by
  have havg : avgMonthlyOrders [] = 0 := by
    simp [avgMonthlyOrders, monthlyData]
  have hrev : avgMonthlyRevenue [] = 0 := by
    simp [avgMonthlyRevenue, monthlyData]
  have hzero : projectedMonthlyRevenue [] scen seas monthOf h = 0 := by
    simp only [projectedMonthlyRevenue, hrev, projectedAfter_zero]
    norm_num [roundCents]
  refine ⟨?_, ?_, ?_⟩
  · simp only [projectedMonthlyOrders, havg, projectedAfter_zero]
    norm_num [jsRound]
  · simp only [revenueLow, hzero]
    norm_num
  · simp only [revenueHigh, hzero]
    norm_num

/-- C1 (counterexample): with a one-bucket history (baseline 100),
moderate scenario (rate 0.05), seasonality on, horizons reaching November
then December, the 2-month projection is
100·1.05·1.20·1.05·1.35 = 178.605 (reported 178.61): the November factor
of the intermediate month enters the product, whereas the claim's formula
100·1.05²·1.35 = 148.8375 (reported 148.84) uses only December's. -/
theorem c1_target_month_only_counterexample :
    projectedMonthlyRevenue singleHistory GrowthScenario.moderate true monthsNovDec 2 =
      17861/100 ∧
    roundCents (avgMonthlyRevenue singleHistory *
      (1 + baseGrowthRate singleHistory GrowthScenario.moderate) ^ 2 *
      seasonalFactors ((monthsNovDec 2).val + 1)) = 14884/100 ∧
    (17861/100 : ℚ) ≠ 14884/100 := by
  have hm1 : seasonalFactors ((monthsNovDec 1).val + 1) = 120/100 := rfl
  have hm2 : seasonalFactors ((monthsNovDec 2).val + 1) = 135/100 := rfl
  refine ⟨?_, ?_, by norm_num⟩
  · have e2 : projectedAfter 100 (5/100) true monthsNovDec 2 =
        100 * (1 + 5/100) * (120/100) * (1 + 5/100) * (135/100) := by
      rw [projectedAfter_step, projectedAfter_step, hm1, hm2]
      show (100 : ℚ) * (1 + 5/100) * (120/100) * (1 + 5/100) * (135/100) = _
      ring
    simp only [projectedMonthlyRevenue, avgRevenue_single, baseGrowthRate_single,
      growthMultipliers, e2]
    norm_num [roundCents]
  · simp only [avgRevenue_single, baseGrowthRate_single, growthMultipliers, hm2]
    norm_num [roundCents]

/-- C1 (amended): with seasonality enabled the projection compounds the
seasonal factor of every month `i = 1..h` on the way to the horizon, i.e.
projected = baseline · (1+rate)^h · ∏ factors, not a single application of
the target month's factor. -/
theorem c1_seasonal_compounding (orders : List ForecastOrder) (scen : GrowthScenario)
    (monthOf : ℕ → Fin 12) (h : ℕ) :
    projectedMonthlyRevenue orders scen true monthOf h =
      roundCents (avgMonthlyRevenue orders * (1 + baseGrowthRate orders scen) ^ h *
        ∏ i in Finset.Icc 1 h, seasonalFactors ((monthOf i).val + 1)) ∧
    projectedMonthlyOrders orders scen true monthOf h =
      jsRound (avgMonthlyOrders orders * (1 + baseGrowthRate orders scen) ^ h *
        ∏ i in Finset.Icc 1 h, seasonalFactors ((monthOf i).val + 1)) := by
  constructor
  · simp only [projectedMonthlyRevenue, projectedAfter_closed]
  · simp only [projectedMonthlyOrders, projectedAfter_closed]

/-- C7 (amended): the confidence bounds are the (cent-rounded) projected
revenue times `1 ∓ 0.15·√h`, and with seasonality disabled and a
non-negative baseline the band width `high - low` is monotonically
non-decreasing in the horizon; with seasonality enabled the monotonicity
fails (see the counterexample), because a sub-1 seasonal factor can shrink
the projection faster than `√h` grows. -/
theorem c7_confidence_band (orders : List ForecastOrder) (scen : GrowthScenario)
    (monthOf : ℕ → Fin 12) (h1 h2 : ℕ) (hle : h1 ≤ h2)
    (hbase : 0 ≤ avgMonthlyRevenue orders) :
    bandWidth orders scen false monthOf h1 ≤ bandWidth orders scen false monthOf h2 := by
  have hrate : (0 : ℚ) < baseGrowthRate orders scen := baseGrowthRate_pos orders scen
  have hp : ∀ n : ℕ, projectedMonthlyRevenue orders scen false monthOf n =
      roundCents (avgMonthlyRevenue orders * (1 + baseGrowthRate orders scen) ^ n) :=
    fun n => by simp only [projectedMonthlyRevenue, projectedAfter_noSeas]
  have hmono : projectedMonthlyRevenue orders scen false monthOf h1 ≤
      projectedMonthlyRevenue orders scen false monthOf h2 := by
    rw [hp h1, hp h2]
    exact roundCents_mono (mul_le_mul_of_nonneg_left
      (pow_le_pow_right₀ (by linarith) hle) hbase)
  have hnn : 0 ≤ projectedMonthlyRevenue orders scen false monthOf h1 := by
    rw [hp h1]
    exact roundCents_nonneg (mul_nonneg hbase (pow_nonneg (by linarith) _))
  have hw : ∀ n : ℕ, bandWidth orders scen false monthOf n =
      (projectedMonthlyRevenue orders scen false monthOf n : ℝ) *
        (2 * (volatility : ℝ) * Real.sqrt n) := by
    intro n
    rw [bandWidth, revenueHigh, revenueLow]
    ring
  rw [hw h1, hw h2]
  have hvol : (0 : ℝ) ≤ 2 * (volatility : ℝ) := by
    rw [volatility]; norm_num
  apply mul_le_mul
  · exact_mod_cast hmono
  · exact mul_le_mul_of_nonneg_left
      (Real.sqrt_le_sqrt (by exact_mod_cast hle)) hvol
  · have := Real.sqrt_nonneg (h1 : ℝ)
    positivity
  · exact_mod_cast le_trans hnn hmono

/-- C7 (witness for the amended theorem). -/
theorem c7_confidence_band_witness :
    (3 : ℕ) ≤ 6 ∧ 0 ≤ avgMonthlyRevenue singleHistory ∧
    bandWidth singleHistory GrowthScenario.moderate false monthsNovDec 3 ≤
      bandWidth singleHistory GrowthScenario.moderate false monthsNovDec 6 := by
  have hb : (0 : ℚ) ≤ avgMonthlyRevenue singleHistory := by
    rw [avgRevenue_single]; norm_num
  exact ⟨by norm_num, hb,
    c7_confidence_band singleHistory GrowthScenario.moderate monthsNovDec 3 6
      (by norm_num) hb⟩

/-- C7 (counterexample): with seasonality enabled, a one-bucket history
(baseline 100) and the conservative scenario, the band is wider at
horizon 5 (December, projected 178.41) than at horizon 6 (January,
projected 154.68): 154.68·0.3·√6 < 178.41·0.3·√5, so the width is not
monotone in the horizon. -/
theorem c7_band_width_counterexample :
    bandWidth singleHistory GrowthScenario.conservative true monthsAugJan 6 <
      bandWidth singleHistory GrowthScenario.conservative true monthsAugJan 5 := by
  have f1 : seasonalFactors ((monthsAugJan 1).val + 1) = 95/100 := rfl
  have f2 : seasonalFactors ((monthsAugJan 2).val + 1) = 1 := rfl
  have f3 : seasonalFactors ((monthsAugJan 3).val + 1) = 105/100 := rfl
  have f4 : seasonalFactors ((monthsAugJan 4).val + 1) = 120/100 := rfl
  have f5 : seasonalFactors ((monthsAugJan 5).val + 1) = 135/100 := rfl
  have f6 : seasonalFactors ((monthsAugJan 6).val + 1) = 85/100 := rfl
  have e5 : projectedAfter 100 (2/100) true monthsAugJan 5 =
      100 * (1 + 2/100) ^ 5 * ((95/100) * 1 * (105/100) * (120/100) * (135/100)) := by
    rw [projectedAfter_step, projectedAfter_step, projectedAfter_step,
      projectedAfter_step, projectedAfter_step, f1, f2, f3, f4, f5]
    show (100 : ℚ) * (1 + 2/100) * (95/100) * (1 + 2/100) * 1 * (1 + 2/100) * (105/100) *
      (1 + 2/100) * (120/100) * (1 + 2/100) * (135/100) = _
    ring
  have e6 : projectedAfter 100 (2/100) true monthsAugJan 6 =
      projectedAfter 100 (2/100) true monthsAugJan 5 * (1 + 2/100) * (85/100) := by
    rw [projectedAfter_step, f6]
  have h5 : projectedMonthlyRevenue singleHistory GrowthScenario.conservative true
      monthsAugJan 5 = 17841/100 := by
    simp only [projectedMonthlyRevenue, avgRevenue_single, baseGrowthRate_single,
      growthMultipliers, e5]
    norm_num [roundCents]
  have h6 : projectedMonthlyRevenue singleHistory GrowthScenario.conservative true
      monthsAugJan 6 = 3867/25 := by
    simp only [projectedMonthlyRevenue, avgRevenue_single, baseGrowthRate_single,
      growthMultipliers, e6, e5]
    norm_num [roundCents]
  have ew : ∀ (p : ℝ) (n : ℕ),
      p * (1 + (volatility : ℝ) * Real.sqrt n) - p * (1 - (volatility : ℝ) * Real.sqrt n) =
        (p * (2 * (volatility : ℝ))) * Real.sqrt n := by
    intro p n
    ring
  rw [bandWidth, bandWidth, revenueHigh, revenueLow, revenueHigh, revenueLow, h5, h6,
    ew, ew]
  apply mul_sqrt_lt_mul_sqrt
  · rw [volatility]
    push_cast
    norm_num
  · rw [volatility]
    push_cast
    norm_num
  · rw [volatility]
    push_cast
    norm_num

/-- C10 (confirmed): each opportunity list is `filter` then `slice(0, 5)`:
it has at most five entries, it is exactly the first five qualifying
products in aggregation insertion order (appending the dropped remainder
of the qualifying list reconstructs it), every entry qualifies and comes
from the aggregated stats, and whenever more than five products qualify
some qualifying occurrences are omitted. -/
theorem c10_opportunity_truncation (orders : List PerfOrder) :
    ((lowInventoryHighVelocity orders).length ≤ 5 ∧
      lowInventoryHighVelocity orders ++
          ((productStats orders).filter restockCandidate).drop 5 =
        (productStats orders).filter restockCandidate ∧
      (∀ p ∈ lowInventoryHighVelocity orders,
        restockCandidate p = true ∧ p ∈ productStats orders) ∧
      (5 < ((productStats orders).filter restockCandidate).length →
        (lowInventoryHighVelocity orders).length <
          ((productStats orders).filter restockCandidate).length)) ∧
    ((highInventoryLowVelocity orders).length ≤ 5 ∧
      highInventoryLowVelocity orders ++
          ((productStats orders).filter promotionCandidate).drop 5 =
        (productStats orders).filter promotionCandidate ∧
      (∀ p ∈ highInventoryLowVelocity orders,
        promotionCandidate p = true ∧ p ∈ productStats orders) ∧
      (5 < ((productStats orders).filter promotionCandidate).length →
        (highInventoryLowVelocity orders).length <
          ((productStats orders).filter promotionCandidate).length)) := by
  constructor
  · refine ⟨?_, ?_, ?_, ?_⟩
    · simp only [lowInventoryHighVelocity, List.length_take]
      omega
    · exact List.take_append_drop 5 _
    · intro p hp
      have hp2 : p ∈ (productStats orders).filter restockCandidate :=
        List.take_subset 5 _ hp
      exact ⟨List.of_mem_filter hp2, List.mem_of_mem_filter hp2⟩
    · intro hgt
      simp only [lowInventoryHighVelocity, List.length_take]
      omega
  · refine ⟨?_, ?_, ?_, ?_⟩
    · simp only [highInventoryLowVelocity, List.length_take]
      omega
    · exact List.take_append_drop 5 _
    · intro p hp
      have hp2 : p ∈ (productStats orders).filter promotionCandidate :=
        List.take_subset 5 _ hp
      exact ⟨List.of_mem_filter hp2, List.mem_of_mem_filter hp2⟩
    · intro hgt
      simp only [highInventoryLowVelocity, List.length_take]
      omega

lemma productStats_six :
    productStats sixRestock = (List.range 6).map (fun k => ⟨k, 20, 100, 1, 5⟩) := rfl

lemma restock_stat_true (k : ℕ) :
    restockCandidate ⟨k, 20, 100, 1, 5⟩ = true := by
  have hv : velocity ⟨k, 20, 100, 1, 5⟩ = 4 := by
    rw [velocity, if_pos (by norm_num : (0 : ℤ) < 5)]
    norm_num
  simp only [restockCandidate, hv, Bool.and_eq_true, decide_eq_true_eq]
  norm_num

/-- C10 (witness): with six qualifying products the qualifying list has
length six, and the reported restock list is strictly shorter — the sixth
qualifying product is silently dropped. -/
theorem c10_opportunity_truncation_witness :
    5 < ((productStats sixRestock).filter restockCandidate).length ∧
    (lowInventoryHighVelocity sixRestock).length <
      ((productStats sixRestock).filter restockCandidate).length := by
  have hfull : (productStats sixRestock).filter restockCandidate = productStats sixRestock := by
    apply List.filter_eq_self.mpr
    intro a ha
    rw [productStats_six] at ha
    simp only [List.mem_map, List.mem_range] at ha
    obtain ⟨k, _, hk⟩ := ha
    rw [← hk]
    exact restock_stat_true k
  have hlen : ((productStats sixRestock).filter restockCandidate).length = 6 := by
    rw [hfull, productStats_six]
    simp
  constructor
  · rw [hlen]
    norm_num
  · exact (c10_opportunity_truncation sixRestock).1.2.2.2 (by rw [hlen]; norm_num)
